import Mathlib

/-!
Verification development for the capsul attribute-driven parameter
completion core (`capsul/attributes/completion_engine.py`,
`capsul/process/process.py`).

Attribute sets (soma `Controller` objects holding traits) are embedded as
ordered association lists `List (String × α)`: `add_trait` appends at the
end, trait lookup returns the first binding, `setattr` updates the first
binding in place.  Values are kept abstract in a type parameter.
-/

namespace Capsul

variable {α : Type}

/-- Lookup of a trait/attribute by name in an ordered attribute set;
embeds `controller.trait(name)` / `getattr` on a traits controller. -/
def find_trait : List (String × α) → String → Option α
  | [], _ => none
  | kv :: rest, n => if kv.1 = n then some kv.2 else find_trait rest n

/-- Assignment of a value to a named trait; embeds `setattr` on a traits
controller: the first binding of the name is updated, and an absent name
is added at the end (traits `HasTraits` objects accept new attributes). -/
def set_value : List (String × α) → String → α → List (String × α)
  | [], n, v => [(n, v)]
  | kv :: rest, n, v =>
    if kv.1 = n then (n, v) :: rest else kv :: set_value rest n v

/-- Modelled from the spec: soma `Controller.import_from_dict` (external
collaborator, not under `src/`) performs a bulk import of a key-value
mapping, assigning each given pair onto the controller. -/
def import_from_dict (dst src : List (String × α)) : List (String × α) :=
  src.foldl (fun d kv => set_value d kv.1 kv.2) dst

/-- Modelled from the spec: soma `Controller.export_to_dict` (external
collaborator, not under `src/`) exports the attribute set to plain
key-value form; on the association-list embedding it is the identity. -/
def export_to_dict (a : List (String × α)) : List (String × α) :=
  a

/-- The inner loop of `ProcessCompletionEngine.get_attribute_values`
(completion_engine.py lines 120-125): for each attribute of one child's
attribute set, if the parent set has no trait of that name, `add_trait`
appends it and `setattr` copies the child's current value. -/
def merge_sub_attributes (attributes sub : List (String × α)) :
    List (String × α) :=
  sub.foldl
    (fun acc kv =>
      if (find_trait acc kv.1).isSome then acc else acc ++ [kv])
    attributes

/-- The child loop of `ProcessCompletionEngine.get_attribute_values`
(completion_engine.py lines 101-125) for a pipeline with no specialized
attribute-set implementation: children are visited in iteration order;
a child whose attribute set could not be obtained (both the engine fetch
and the fallback construction raised) is `none` and is skipped
(`except: continue`), a successful child contributes its attribute set. -/
def build_pipeline_attributes (init : List (String × α))
    (children : List (Option (List (String × α)))) : List (String × α) :=
  children.foldl
    (fun acc sub? =>
      match sub? with
      | some sub => merge_sub_attributes acc sub
      | none => acc)
    init

/-- State of one `ProcessCompletionEngine` as far as attribute-set
caching is concerned: the `capsul_attributes` trait is absent until the
first `get_attribute_values` call creates it. -/
structure CEState (α : Type) where
  capsul_attributes : Option (List (String × α))

/-- The caching shell of `ProcessCompletionEngine.get_attribute_values`
(completion_engine.py lines 69-128): if the `capsul_attributes` trait
exists, return it; otherwise construct the attribute set (the
construction, lines 73-127, is abstracted as `build`, cf.
`build_pipeline_attributes`) and store it on the engine. -/
def get_attribute_values (build : Unit → List (String × α))
    (s : CEState α) : List (String × α) × CEState α :=
  match s.capsul_attributes with
  | some a => (a, s)
  | none =>
    let a := build ()
    (a, { capsul_attributes := some a })

/-- The `process_inputs` mapping accepted by `complete_parameters` and
`set_parameters`: ordinary parameter entries plus an optional
sub-mapping under the reserved key `capsul_attributes`. -/
structure Inputs (α : Type) where
  plain : List (String × α)
  capsul_attributes : Option (List (String × α))

/-- `ProcessCompletionEngine.set_parameters` (completion_engine.py lines
228-248) on the engine's state `(params, attrs)`: the attributes
sub-mapping, when present and non-empty (Python `if attributes:` is
false for `None` and for an empty dict), is filtered to the attribute
names already declared on the engine's attribute set and imported into
it; the remaining plain entries are imported directly onto the process. -/
def set_parameters (params attrs : List (String × α)) (inputs : Inputs α) :
    List (String × α) × List (String × α) :=
  let attrs1 :=
    match inputs.capsul_attributes with
    | some d =>
      if d.isEmpty then attrs
      else
        import_from_dict attrs
          (d.filter (fun kv => (find_trait attrs kv.1).isSome))
    | none => attrs
  (import_from_dict params inputs.plain, attrs1)

/-- Observable state of one engine for the change-notification handler:
the per-engine re-entrancy guard `completion_ongoing` (set to `False` in
`__init__`, line 54) and the log of `complete_parameters` invocations the
handler has made, each recorded as the single changed attribute passed
under the reserved key (line 275). -/
structure HState (α : Type) where
  completion_ongoing : Bool
  passes : List (String × α)

/-- A trait-change notification: the changed attribute's name and new
value, the notifications fired from inside the nested
`complete_parameters` pass this change triggers (reassignments performed
during the pass), and whether that nested pass raises an exception. -/
inductive Event (α : Type) where
  | mk (name : String) (newVal : α) (inner : List (Event α))
      (pass_fails : Bool)

mutual

/-- `ProcessCompletionEngine.attributes_changed` (completion_engine.py
lines 251-276): on a change whose name is neither `trait_added` nor
`user_traits_changed`, and only if `completion_ongoing` is `False`, set
the guard, call `complete_parameters({'capsul_attributes': {name: new}})`
(during which further notifications re-enter this handler), then clear
the guard.  The clearing statement is plain sequential code, so when the
nested call raises (second component `true`) it is not executed and the
exception propagates. -/
def attributes_changed (s : HState α) : Event α → HState α × Bool
  | .mk name newVal inner fails =>
    if name ≠ "trait_added" ∧ name ≠ "user_traits_changed" ∧
        s.completion_ongoing = false then
      let s1 : HState α :=
        { completion_ongoing := true,
          passes := s.passes ++ [(name, newVal)] }
      let s2 := notify_all s1 inner
      if fails then (s2, true)
      else ({ s2 with completion_ongoing := false }, false)
    else (s, false)

/-- Notifications fired in sequence during a completion pass, each
dispatched to `attributes_changed`. -/
def notify_all (s : HState α) : List (Event α) → HState α
  | [] => s
  | e :: rest => notify_all (attributes_changed s e).1 rest

end

/-- A process as `complete_parameters` sees it: its parameters
(`user_traits`), its engine's already-built attribute set
(`capsul_attributes`), a flag modelling that any call into this process
raises an exception, and — for a pipeline — the child-node entries of
`workflow_graph().topological_sort()`.  Modelled from the spec for the
parts outside `src/`: the workflow graph and its topological sort live
in `capsul.pipeline.pipeline`, so the pipeline constructor directly
stores the `(node_name, node_meta)` entries in the topological order
the traversal yields; an entry is either a `Graph` wrapper around a
nested pipeline (`Sum.inl`) or a list of pipeline nodes, each tagged
with whether it is a `ProcessNode` wrapper around its process
(`Sum.inr`). -/
inductive Proc (α : Type) where
  | atomic (params attrs : List (String × α)) (broken : Bool)
  | pipeline (params attrs : List (String × α)) (broken : Bool)
      (topo : List (String × (Proc α ⊕ List (Bool × Proc α))))

/-- The path-resolution strategy reaching one node:
`engine.attributes_to_path(parameter, attributes)` maps the node, a
parameter name and the attribute set to a path (`some`), to no path
(`none`, the base implementation), or raises (`Except.error`, e.g. the
pure-virtual factory of lines 381-387). -/
def ResolveFn (α : Type) : Type :=
  Proc α → String → List (String × α) → Except Unit (Option α)

/-- The final phase of `complete_parameters` (completion_engine.py lines
205-213): for every declared parameter of the node, attempt
`attributes_to_path`; assign the result only when it is not `None`; a
raised exception is swallowed by the bare `except: pass` and the loop
continues, leaving that parameter at its prior value. -/
def resolve_self (R : ResolveFn α) (self : Proc α)
    (attributes params : List (String × α)) : List (String × α) :=
  params.map (fun pv =>
    match R self pv.1 attributes with
    | .ok (some v) => (pv.1, v)
    | _ => pv)

mutual

/-- `ProcessCompletionEngine.complete_parameters` (completion_engine.py
lines 131-213): apply `set_parameters`; for a pipeline, export the
engine's attribute values and run the children in the topological order
of the workflow graph (the `use_topological_order = True` branch; the
other branch is dead code), each child receiving the exported values
under the reserved key; finally resolve the node's own parameters.  A
`broken` process models a process any completion call on which raises. -/
def complete_parameters (R : ResolveFn α) (inputs : Inputs α) :
    Proc α → Except Unit (Proc α)
  | .atomic params attrs broken =>
    if broken then .error () else
      let pa := set_parameters params attrs inputs
      .ok (.atomic (resolve_self R (.atomic params attrs broken) pa.2 pa.1)
        pa.2 broken)
  | .pipeline params attrs broken topo =>
    if broken then .error () else
      let pa := set_parameters params attrs inputs
      let attrib_values := export_to_dict pa.2
      let topo1 := complete_topo R attrib_values topo
      .ok (.pipeline
        (resolve_self R (.pipeline params attrs broken topo) pa.2 pa.1)
        pa.2 broken topo1)

/-- The traversal loop (lines 162-184): for each `(node_name, node_meta)`
yielded by the topological sort, unwrap the entry and complete each
resulting process. -/
def complete_topo (R : ResolveFn α) (av : List (String × α)) :
    List (String × (Proc α ⊕ List (Bool × Proc α))) →
      List (String × (Proc α ⊕ List (Bool × Proc α)))
  | [] => []
  | (n, .inl p) :: rest =>
    (n, .inl (try_complete R av p)) :: complete_topo R av rest
  | (n, .inr ns) :: rest =>
    (n, .inr (complete_nodes R av ns)) :: complete_topo R av rest

/-- The inner loop over the nodes of one entry (lines 168-184): a
`ProcessNode` wrapper yields its `.process`, a plain node is used
directly; either way one process is completed. -/
def complete_nodes (R : ResolveFn α) (av : List (String × α)) :
    List (Bool × Proc α) → List (Bool × Proc α)
  | [] => []
  | (b, p) :: rest => (b, try_complete R av p) :: complete_nodes R av rest

/-- The per-child try/except of lines 176-184: complete the child with
the parent's exported attribute values; if that raises, construct a
fallback engine and retry (in this model the fallback sees the same
cached state, so the retry is the same call); if the retry raises too,
the child is skipped and keeps its previous state. -/
def try_complete (R : ResolveFn α) (av : List (String × α)) (p : Proc α) :
    Proc α :=
  match complete_parameters R
      { plain := [], capsul_attributes := some av } p with
  | .ok p' => p'
  | .error _ =>
    match complete_parameters R
        { plain := [], capsul_attributes := some av } p with
    | .ok p' => p'
    | .error _ => p

end

/-- Modelled from the spec: the downward propagation step for one child —
`complete_parameters` is invoked on the child's completion engine with
the parent's resolved attribute values under the reserved key, not the
child's own attributes; a per-child failure is caught, retried on a
freshly constructed engine, and finally ignored, leaving the child
unchanged. -/
def spec_child_step (R : ResolveFn α) (parent_values : List (String × α))
    (child : Proc α) : Proc α :=
  match complete_parameters R
      { plain := [], capsul_attributes := some parent_values } child with
  | .ok c => c
  | .error _ =>
    match complete_parameters R
        { plain := [], capsul_attributes := some parent_values } child with
    | .ok c => c
    | .error _ => child

/-- Mapping a function over every process of one topological-sort entry,
preserving the entry's wrapper structure. -/
def map_entry_procs (f : Proc α → Proc α) :
    (Proc α ⊕ List (Bool × Proc α)) → (Proc α ⊕ List (Bool × Proc α))
  | .inl p => .inl (f p)
  | .inr ns => .inr (ns.map (fun bp => (bp.1, f bp.2)))

/-- The node's own parameters. -/
def own_params : Proc α → List (String × α)
  | .atomic params _ _ => params
  | .pipeline params _ _ _ => params

/-- `PathCompletionEngineFactory.get_path_completion_engine`
(completion_engine.py lines 385-387): the null factory is pure virtual
and raises `RuntimeError` unconditionally. -/
def null_factory_get_path_completion_engine (process : Proc α) :
    Except Unit Unit :=
  .error ()

/-- Path resolution of an engine whose study config names no
path-completion implementation: `get_path_completion_engine` (lines
279-296) falls back on the pure-virtual `PathCompletionEngineFactory`,
so inside `attributes_to_path` the factory's `RuntimeError` is raised
for every parameter. -/
def unconfigured_attributes_to_path : ResolveFn α :=
  fun process _ _ =>
    match null_factory_get_path_completion_engine process with
    | .error e => .error e
    | .ok _ => .ok none

/-- `ProcessCompletionEngine.attributes_to_path` (completion_engine.py
lines 216-225): a plain delegation to the path completion engine, with
no exception handling of its own, so a raise propagates to its caller. -/
def engine_attributes_to_path (R : ResolveFn α) (self : Proc α)
    (parameter : String) (attributes : List (String × α)) :
    Except Unit (Option α) :=
  R self parameter attributes

/-- `PathCompletionEngine.attributes_to_path` (completion_engine.py
lines 341-353): the base implementation returns `None` for every
process, parameter and attribute set. -/
def base_attributes_to_path (process : Proc α) (parameter : String)
    (attributes : List (String × α)) : Option α :=
  none

/-- The `ResolveFn` induced by the base `PathCompletionEngine`. -/
def base_path_resolution : ResolveFn α :=
  fun process parameter attributes =>
    .ok (base_attributes_to_path process parameter attributes)

/-- Trait kinds as far as `Process.set_parameter` distinguishes them. -/
inductive TraitKind where
  | file
  | directory
  | other

/-- Modelled from the spec: `is_trait_pathname` lives in
`capsul.utils.trait_utils`, outside `src/`; per `set_parameter`'s own
docstring ("For File and Directory traits the None value is replaced by
the special _Undefined trait value") it detects File and Directory
traits. -/
def is_trait_pathname : TraitKind → Bool
  | .file => true
  | .directory => true
  | .other => false

/-- A Python value as stored in a trait: `None`, the traits library's
special `_Undefined` value, or an ordinary value. -/
inductive PyValue (α : Type) where
  | pyNone
  | undefined
  | val (v : α)

/-- Whether a `PyValue` is Python `None`. -/
def PyValue.isNone : PyValue α → Bool
  | .pyNone => true
  | _ => false

/-- `Process.set_parameter` (process.py lines 525-545): when the value
is `None` and the named trait is a File or Directory, the value is
replaced by `_Undefined`; the (possibly replaced) value is then stored
with `setattr`. -/
def process_set_parameter (trait_of : String → TraitKind)
    (st : List (String × PyValue α)) (name : String)
    (value : PyValue α) : List (String × PyValue α) :=
  let value :=
    if value.isNone && is_trait_pathname (trait_of name) then
      PyValue.undefined
    else value
  set_value st name value

/-- The inner node loop of the traversal (completion_engine.py lines
168-184) with the engine-construction step made explicit: for each
node's process, `ProcessCompletionEngine.get_completion_engine`
(lines 173-175, itself defined at lines 299-320, where a configured
`process_completion` plugin factory may raise) is called BEFORE the
`try` of line 176.  `construct` gives that call's outcome per process.
When it raises, the exception propagates: the current node and every
node after it are left untouched and the second component is `true`
(the whole traversal aborts); otherwise the protected completion (and
protected fallback construction) of lines 176-184 runs as usual. -/
def complete_nodes_constr (R : ResolveFn α)
    (construct : Proc α → Except Unit Unit) (av : List (String × α)) :
    List (Bool × Proc α) → List (Bool × Proc α) × Bool
  | [] => ([], false)
  | (b, p) :: rest =>
    match construct p with
    | .error _ => ((b, p) :: rest, true)
    | .ok _ =>
      let r := complete_nodes_constr R construct av rest
      ((b, try_complete R av p) :: r.1, r.2)

/-- The entry loop of the traversal (completion_engine.py lines
162-184) with the engine-construction step of lines 173-175 explicit
(see `complete_nodes_constr`): an unprotected construction failure
aborts the traversal — the failing entry and all later entries stay
untouched and the second component is `true`. -/
def complete_topo_constr (R : ResolveFn α)
    (construct : Proc α → Except Unit Unit) (av : List (String × α)) :
    List (String × (Proc α ⊕ List (Bool × Proc α))) →
      List (String × (Proc α ⊕ List (Bool × Proc α))) × Bool
  | [] => ([], false)
  | (n, .inl p) :: rest =>
    match construct p with
    | .error _ => ((n, .inl p) :: rest, true)
    | .ok _ =>
      let done := (n, Sum.inl (try_complete R av p))
      let r := complete_topo_constr R construct av rest
      (done :: r.1, r.2)
  | (n, .inr ns) :: rest =>
    let inner := complete_nodes_constr R construct av ns
    if inner.2 then ((n, .inr inner.1) :: rest, true)
    else
      let r := complete_topo_constr R construct av rest
      ((n, .inr inner.1) :: r.1, r.2)

/-- `complete_parameters` on a (non-raising) pipeline with the
engine-construction step of the traversal explicit: the result is the
pipeline's state after the call together with whether the call raised.
When the traversal aborts on an unprotected construction failure, the
side effects already performed persist (`set_parameters` and the
children completed so far), the final own-parameter phase of lines
205-213 never runs, and the exception propagates to the caller
(second component `true`). -/
def complete_parameters_pipeline_constr (R : ResolveFn α)
    (construct : Proc α → Except Unit Unit) (inputs : Inputs α)
    (params attrs : List (String × α))
    (topo : List (String × (Proc α ⊕ List (Bool × Proc α)))) :
    Proc α × Bool :=
  let pa := set_parameters params attrs inputs
  let av := export_to_dict pa.2
  let r := complete_topo_constr R construct av topo
  if r.2 then (.pipeline pa.1 pa.2 false r.1, true)
  else
    (.pipeline (resolve_self R (.pipeline params attrs false topo)
        pa.2 pa.1) pa.2 false r.1, false)

theorem find_trait_append (l₁ l₂ : List (String × α)) (n : String) :
    find_trait (l₁ ++ l₂) n =
      match find_trait l₁ n with
      | some v => some v
      | none => find_trait l₂ n := by
  induction l₁ with
  | nil => simp [find_trait]
  | cons kv rest ih =>
    by_cases h : kv.1 = n <;> simp [find_trait, h, ih]

theorem merge_sub_preserves (acc sub : List (String × α)) (n : String)
    (h : (find_trait acc n).isSome) :
    find_trait (merge_sub_attributes acc sub) n = find_trait acc n := by
  induction sub generalizing acc with
  | nil => rfl
  | cons kv rest ih =>
    simp only [merge_sub_attributes, List.foldl_cons]
    by_cases hk : (find_trait acc kv.1).isSome
    · simpa [merge_sub_attributes, hk] using ih acc h
    · have hne : kv.1 ≠ n := by
        intro he; rw [he] at hk; exact hk h
      have happ : find_trait (acc ++ [kv]) n = find_trait acc n := by
        rw [find_trait_append]
        obtain ⟨v, hv⟩ := Option.isSome_iff_exists.mp h
        simp [hv]
      have h' : (find_trait (acc ++ [kv]) n).isSome := by
        rw [happ]; exact h
      simpa [merge_sub_attributes, hk, happ] using ih (acc ++ [kv]) h'

theorem merge_sub_adds (acc sub : List (String × α)) (n : String) (v : α)
    (hacc : find_trait acc n = none) (hsub : find_trait sub n = some v) :
    find_trait (merge_sub_attributes acc sub) n = some v := by
  induction sub generalizing acc with
  | nil => simp [find_trait] at hsub
  | cons kv rest ih =>
    simp only [merge_sub_attributes, List.foldl_cons]
    by_cases hk : kv.1 = n
    · have hv : kv.2 = v := by
        simp [find_trait, hk] at hsub; exact hsub
      have hnone : (find_trait acc kv.1).isSome = false := by
        rw [hk, hacc]; rfl
      have happ : find_trait (acc ++ [kv]) n = some v := by
        rw [find_trait_append, hacc]
        simp [find_trait, hk, hv]
      have hsome : (find_trait (acc ++ [kv]) n).isSome := by
        rw [happ]; rfl
      have := merge_sub_preserves (acc ++ [kv]) rest n hsome
      simp only [merge_sub_attributes] at this
      simp only [hnone, Bool.false_eq_true, if_false]
      rw [this, happ]
    · have hrest : find_trait rest n = some v := by
        simpa [find_trait, hk] using hsub
      by_cases hp : (find_trait acc kv.1).isSome
      · simpa [hp] using ih acc hacc hrest
      · have happ : find_trait (acc ++ [kv]) n = none := by
          rw [find_trait_append, hacc]; simp [find_trait, hk]
        simpa [hp] using ih (acc ++ [kv]) happ hrest

theorem merge_sub_absent (acc sub : List (String × α)) (n : String)
    (hacc : find_trait acc n = none) (hsub : find_trait sub n = none) :
    find_trait (merge_sub_attributes acc sub) n = none := by
  induction sub generalizing acc with
  | nil => simpa [merge_sub_attributes] using hacc
  | cons kv rest ih =>
    simp only [merge_sub_attributes, List.foldl_cons]
    have hk : kv.1 ≠ n := by
      intro he
      simp [find_trait, he] at hsub
    have hrest : find_trait rest n = none := by
      simpa [find_trait, hk] using hsub
    by_cases hp : (find_trait acc kv.1).isSome
    · simpa [hp] using ih acc hacc hrest
    · have happ : find_trait (acc ++ [kv]) n = none := by
        rw [find_trait_append, hacc]; simp [find_trait, hk]
      simpa [hp] using ih (acc ++ [kv]) happ hrest

theorem build_preserves (init : List (String × α))
    (children : List (Option (List (String × α)))) (n : String)
    (h : (find_trait init n).isSome) :
    find_trait (build_pipeline_attributes init children) n =
      find_trait init n := by
  induction children generalizing init with
  | nil => rfl
  | cons c rest ih =>
    match c with
    | none => simpa [build_pipeline_attributes] using ih init h
    | some sub =>
      have hm := merge_sub_preserves init sub n h
      have hs : (find_trait (merge_sub_attributes init sub) n).isSome := by
        rw [hm]; exact h
      have := ih (merge_sub_attributes init sub) hs
      simpa [build_pipeline_attributes, hm] using this

theorem build_first_wins (children : List (Option (List (String × α))))
    (init : List (String × α)) (i : Nat) (sub : List (String × α))
    (A : String) (v : α)
    (hchild : children[i]? = some (some sub))
    (hsub : find_trait sub A = some v)
    (hinit : find_trait init A = none)
    (hfirst : ∀ s ∈ (children.take i).reduceOption, find_trait s A = none) :
    find_trait (build_pipeline_attributes init children) A = some v := by
  induction children generalizing init i with
  | nil => simp at hchild
  | cons c rest ih =>
    cases i with
    | zero =>
      have hc : c = some sub := by simpa using hchild
      subst hc
      have h1 : find_trait (merge_sub_attributes init sub) A = some v :=
        merge_sub_adds init sub A v hinit hsub
      have h2 := build_preserves (merge_sub_attributes init sub) rest A
        (by rw [h1]; rfl)
      rw [h1] at h2
      simpa [build_pipeline_attributes] using h2
    | succ j =>
      have hchild' : rest[j]? = some (some sub) := by simpa using hchild
      cases c with
      | none =>
        have hfirst' : ∀ s ∈ (rest.take j).reduceOption,
            find_trait s A = none := by
          intro s hs
          exact hfirst s
            (by simpa [List.take_succ_cons,
                  List.reduceOption_cons_of_none] using hs)
        simpa [build_pipeline_attributes] using
          ih init j hchild' hinit hfirst'
      | some s0 =>
        have hs0 : find_trait s0 A = none := by
          exact hfirst s0
            (by simp [List.take_succ_cons, List.reduceOption_cons_of_some])
        have hinit' : find_trait (merge_sub_attributes init s0) A = none :=
          merge_sub_absent init s0 A hinit hs0
        have hfirst' : ∀ s ∈ (rest.take j).reduceOption,
            find_trait s A = none := by
          intro s hs
          exact hfirst s
            (by simp [List.take_succ_cons,
                  List.reduceOption_cons_of_some, hs])
        simpa [build_pipeline_attributes] using
          ih (merge_sub_attributes init s0) j hchild' hinit' hfirst'

/-- C1: for a pipeline process with no specialized attribute-set
implementation, `get_attribute_values` builds the parent attribute set
by iterating the children in iteration order, adding each child
attribute (with the child's current value) only when no attribute of
that name is already present.  Hence when child `i` is the first child
declaring attribute `A` (no earlier successfully-fetched child declares
it, nor does the freshly constructed generic parent set), the parent's
value of `A` equals child `i`'s value; and merging any later sibling
never overwrites an attribute already present. -/
theorem C1_first_declaring_child_wins
    (children : List (Option (List (String × α))))
    (init : List (String × α)) (i : Nat) (sub : List (String × α))
    (A : String) (v : α)
    (hchild : children[i]? = some (some sub))
    (hsub : find_trait sub A = some v)
    (hinit : find_trait init A = none)
    (hfirst : ∀ s ∈ (children.take i).reduceOption, find_trait s A = none) :
    find_trait (build_pipeline_attributes init children) A = some v ∧
      ∀ (acc later : List (String × α)) (w : α), find_trait acc A = some w →
        find_trait (merge_sub_attributes acc later) A = some w := by
  refine ⟨build_first_wins children init i sub A v hchild hsub hinit hfirst,
    ?_⟩
  intro acc later w hw
  have := merge_sub_preserves acc later A (by rw [hw]; rfl)
  rw [this, hw]

/-- Witness for C1 at a concrete input: three children, the first does
not declare `A`, the second and third both do; the merged parent keeps
the second child's value. -/
theorem C1_first_declaring_child_wins_witness :
    find_trait
      (build_pipeline_attributes ([] : List (String × Nat))
        [some [("B", 2)], some [("A", 1)], some [("A", 9)]]) "A" =
      some 1 :=
  (C1_first_declaring_child_wins
    [some [("B", 2)], some [("A", 1)], some [("A", 9)]] [] 1 [("A", 1)]
    "A" 1 (by rfl) (by decide) (by decide)
    (by decide)).1

/-- C7: `get_attribute_values` is idempotent: the first call on a fresh
engine creates and caches the attribute set, and a second call on the
same engine returns the very same set and leaves the engine state
unchanged. -/
theorem C7_get_attribute_values_idempotent
    (build : Unit → List (String × α)) (s : CEState α) :
    get_attribute_values build (get_attribute_values build s).2 =
        get_attribute_values build s ∧
      (get_attribute_values build
          { capsul_attributes := none }).2.capsul_attributes =
        some (get_attribute_values build
          { capsul_attributes := none }).1 := by
  constructor
  · match s with
    | { capsul_attributes := some a } => rfl
    | { capsul_attributes := none } => rfl
  · rfl

/-- C8: `set_parameters` imports from the `capsul_attributes`
sub-mapping only attribute names already declared on the engine's
attribute set; when every name of the sub-mapping is undeclared the
attribute set is left unchanged (unknown names are silently dropped,
not auto-created), while the remaining plain entries are imported
directly onto the process. -/
theorem C8_unknown_attribute_names_dropped
    (params attrs d plain : List (String × α))
    (h : ∀ kv ∈ d, find_trait attrs kv.1 = none) :
    set_parameters params attrs { plain := plain, capsul_attributes := some d } =
      (import_from_dict params plain, attrs) := by
  have hfilt : d.filter (fun kv => (find_trait attrs kv.1).isSome) = [] := by
    rw [List.filter_eq_nil_iff]
    intro kv hkv
    rw [h kv hkv]
    simp
  cases hd : d.isEmpty
  · simp [set_parameters, hd, hfilt, import_from_dict]
  · have : d = [] := List.isEmpty_iff.mp hd
    simp [set_parameters, this]

/-- Witness for C8: a sub-mapping holding only the undeclared name
`unknown_x` leaves the attribute set unchanged while the plain entry is
imported onto the process. -/
theorem C8_unknown_attribute_names_dropped_witness :
    set_parameters [("p", 7)] [("A", 0)]
        { plain := [("p", 9)],
          capsul_attributes := some [("unknown_x", (5 : Nat))] } =
      ([("p", 9)], [("A", 0)]) :=
  (C8_unknown_attribute_names_dropped [("p", 7)] [("A", 0)]
    [("unknown_x", 5)] [("p", 9)] (by decide)).trans (by decide)

theorem attributes_changed_noop (s : HState α) (e : Event α)
    (h : s.completion_ongoing = true) :
    attributes_changed s e = (s, false) := by
  match e with
  | .mk name newVal inner fails =>
    simp [attributes_changed, h]

theorem notify_all_noop (s : HState α) (evs : List (Event α))
    (h : s.completion_ongoing = true) :
    notify_all s evs = s := by
  induction evs with
  | nil => rfl
  | cons e rest ih =>
    rw [notify_all, attributes_changed_noop s e h]
    exact ih

/-- C4: when `attributes_changed` fires for a change whose name is
neither `trait_added` nor `user_traits_changed` while no completion pass
is ongoing, exactly one `complete_parameters` pass runs, carrying just
the single changed attribute, whatever reassignment notifications occur
during the pass; and any notification arriving while the guard is set is
a no-op, so recursion is bounded at one pass per external change. -/
theorem C4_one_completion_pass_per_change (s : HState α) (name : String)
    (newVal : α) (inner : List (Event α)) (fails : Bool)
    (h1 : name ≠ "trait_added") (h2 : name ≠ "user_traits_changed")
    (h3 : s.completion_ongoing = false) :
    (attributes_changed s (.mk name newVal inner fails)).1.passes =
        s.passes ++ [(name, newVal)] ∧
      ∀ (s2 : HState α) (e : Event α), s2.completion_ongoing = true →
        attributes_changed s2 e = (s2, false) := by
  constructor
  · rw [attributes_changed]
    simp only [h1, h2, h3, ne_eq, not_false_iff, true_and, and_true,
      if_true]
    rw [notify_all_noop _ inner rfl]
    cases fails <;> rfl
  · exact fun s2 e h => attributes_changed_noop s2 e h

/-- Witness for C4: an external change to attribute `A` whose pass
reassigns `A` (an inner notification) still yields exactly one recorded
completion pass. -/
theorem C4_one_completion_pass_per_change_witness :
    (attributes_changed ({ completion_ongoing := false, passes := [] } :
        HState Nat)
      (.mk "A" 0 [.mk "A" 1 [] false] false)).1.passes = [("A", 0)] :=
  ((C4_one_completion_pass_per_change
    { completion_ongoing := false, passes := [] } "A" 0
    [.mk "A" 1 [] false] false (by decide) (by decide) rfl).1).trans
    (by simp)

/-- Counterexample for C5: a change to `A` whose nested
`complete_parameters` pass raises leaves `completion_ongoing` set — the
handler body is plain sequential code with no try/finally, so the
clearing assignment (line 276) is skipped when line 275 raises. -/
theorem C5_counterexample :
    (attributes_changed
        ({ completion_ongoing := false, passes := [] } : HState Nat)
        (.mk "A" 0 [] true)).1.completion_ongoing = true := by
  rw [attributes_changed]
  simp [notify_all]

/-- C5 as amended: the guard set by `attributes_changed` is cleared when
the nested `complete_parameters` call returns normally; when the nested
call raises, the exception propagates (second component `true`) and the
guard remains set, so a failing pass does leave the engine's further
completions disabled. -/
theorem C5_guard_cleared_on_normal_return_only (s : HState α)
    (name : String) (newVal : α) (inner : List (Event α))
    (h1 : name ≠ "trait_added") (h2 : name ≠ "user_traits_changed")
    (h3 : s.completion_ongoing = false) :
    (attributes_changed s
        (.mk name newVal inner false)).1.completion_ongoing = false ∧
      (attributes_changed s
          (.mk name newVal inner true)).1.completion_ongoing = true ∧
        (attributes_changed s (.mk name newVal inner true)).2 = true := by
  refine ⟨?_, ?_, ?_⟩ <;>
    · rw [attributes_changed]
      simp [h1, h2, h3, notify_all_noop]

/-- Witness for C5's amended statement at a concrete engine state and
change. -/
theorem C5_guard_cleared_on_normal_return_only_witness :
    (attributes_changed
        ({ completion_ongoing := false, passes := [] } : HState Nat)
        (.mk "B" 3 [] false)).1.completion_ongoing = false :=
  (C5_guard_cleared_on_normal_return_only
    { completion_ongoing := false, passes := [] } "B" 3 []
    (by decide) (by decide) rfl).1

theorem try_complete_eq_spec_child_step (R : ResolveFn α)
    (av : List (String × α)) (p : Proc α) :
    try_complete R av p = spec_child_step R av p := by
  rw [try_complete, spec_child_step]

theorem complete_nodes_eq_map (R : ResolveFn α) (av : List (String × α))
    (ns : List (Bool × Proc α)) :
    complete_nodes R av ns =
      ns.map (fun bp => (bp.1, spec_child_step R av bp.2)) := by
  induction ns with
  | nil => simp [complete_nodes]
  | cons bp rest ih =>
    match bp with
    | (b, p) =>
      simp [complete_nodes, ih, try_complete_eq_spec_child_step]

theorem complete_topo_eq_map (R : ResolveFn α) (av : List (String × α))
    (topo : List (String × (Proc α ⊕ List (Bool × Proc α)))) :
    complete_topo R av topo =
      topo.map (fun ne =>
        (ne.1, map_entry_procs (spec_child_step R av) ne.2)) := by
  induction topo with
  | nil => simp [complete_topo]
  | cons ne rest ih =>
    match ne with
    | (n, .inl p) =>
      simp [complete_topo, ih, map_entry_procs,
        try_complete_eq_spec_child_step]
    | (n, .inr ns) =>
      simp [complete_topo, ih, map_entry_procs, complete_nodes_eq_map]

/-- C2: `complete_parameters` on a (non-raising) pipeline process walks
the workflow-graph entries in topological order, unwraps each entry
(nested-pipeline `Graph` wrapper to its pipeline, `ProcessNode` wrapper
to its process) and recursively completes every resulting child with the
parent's exported attribute values under the reserved `capsul_attributes`
key — the child's own attributes play no part in the inputs it receives —
so attribute values flow strictly downward, in traversal order. -/
theorem C2_downward_propagation_in_topological_order (R : ResolveFn α)
    (inputs : Inputs α) (params attrs : List (String × α))
    (topo : List (String × (Proc α ⊕ List (Bool × Proc α)))) :
    complete_parameters R inputs (.pipeline params attrs false topo) =
      .ok (.pipeline
        (resolve_self R (.pipeline params attrs false topo)
          (set_parameters params attrs inputs).2
          (set_parameters params attrs inputs).1)
        (set_parameters params attrs inputs).2 false
        (topo.map (fun ne =>
          (ne.1, map_entry_procs
            (spec_child_step R
              (export_to_dict (set_parameters params attrs inputs).2))
            ne.2)))) := by
  rw [complete_parameters]
  simp [complete_topo_eq_map]

/-- A failure raised while completing one child of a pipeline (inside
the `try` of completion_engine.py line 176, fallback included) is
caught and that child is skipped while the traversal continues: for a
pipeline with three children whose second's completion raises, the
first and third children still go through completion (their parameters
receive the resolved values), and the second is left exactly as it
was. -/
theorem pipeline_child_completion_failure_skipped (R : ResolveFn α)
    (inputs : Inputs α)
    (params attrs p1 a1 p2 a2 p3 a3 : List (String × α))
    (n1 n2 n3 : String) :
    complete_parameters R inputs
      (.pipeline params attrs false
        [(n1, .inl (.atomic p1 a1 false)),
         (n2, .inl (.atomic p2 a2 true)),
         (n3, .inl (.atomic p3 a3 false))]) =
      (let pa := set_parameters params attrs inputs
       let cin : Inputs α :=
         { plain := [], capsul_attributes := some (export_to_dict pa.2) }
       let ca1 := set_parameters p1 a1 cin
       let ca3 := set_parameters p3 a3 cin
       .ok (.pipeline
        (resolve_self R
          (.pipeline params attrs false
            [(n1, .inl (.atomic p1 a1 false)),
             (n2, .inl (.atomic p2 a2 true)),
             (n3, .inl (.atomic p3 a3 false))])
          pa.2 pa.1)
        pa.2 false
        [(n1, .inl (.atomic (resolve_self R (.atomic p1 a1 false)
            ca1.2 ca1.1) ca1.2 false)),
         (n2, .inl (.atomic p2 a2 true)),
         (n3, .inl (.atomic (resolve_self R (.atomic p3 a3 false)
            ca3.2 ca3.1) ca3.2 false))])) := by
  simp only [complete_parameters, complete_topo, try_complete,
    Bool.false_eq_true, if_false, if_true, reduceIte]

theorem complete_nodes_constr_ok (R : ResolveFn α)
    (av : List (String × α)) (ns : List (Bool × Proc α)) :
    complete_nodes_constr R (fun _ => Except.ok ()) av ns =
      (complete_nodes R av ns, false) := by
  induction ns with
  | nil => simp [complete_nodes_constr, complete_nodes]
  | cons bp rest ih =>
    match bp with
    | (b, p) => simp [complete_nodes_constr, complete_nodes, ih]

theorem complete_topo_constr_ok (R : ResolveFn α)
    (av : List (String × α))
    (topo : List (String × (Proc α ⊕ List (Bool × Proc α)))) :
    complete_topo_constr R (fun _ => Except.ok ()) av topo =
      (complete_topo R av topo, false) := by
  induction topo with
  | nil => simp [complete_topo_constr, complete_topo]
  | cons ne rest ih =>
    match ne with
    | (n, .inl p) => simp [complete_topo_constr, complete_topo, ih]
    | (n, .inr ns) =>
      simp [complete_topo_constr, complete_topo, ih,
        complete_nodes_constr_ok]

/-- Counterexample for C3: for a three-child pipeline whose second
child's ENGINE CONSTRUCTION raises — `get_completion_engine` at
completion_engine.py lines 173-175 runs before the `try` of line 176 —
the exception is not caught: the call aborts and propagates (second
component `true`), the second and third children stay untouched (the
third never receives resolved parameters, although the resolver here
resolves every parameter of a visited child), and the pipeline's own
final resolution phase never runs — contradicting the claim that such
a failure is caught, the child skipped, and the traversal continued. -/
theorem C3_counterexample :
    complete_parameters_pipeline_constr
        (fun _ _ _ => Except.ok (some 7))
        (fun p => if own_params p = [("p2", 0)] then Except.error ()
          else Except.ok ())
        { plain := [], capsul_attributes := none } [] [("A", 1)]
        [("n1", Sum.inl (Proc.atomic [("p1", 0)] [] false)),
         ("n2", Sum.inl (Proc.atomic [("p2", 0)] [] false)),
         ("n3", Sum.inl (Proc.atomic [("p3", (0 : Nat))] [] false))] =
      (Proc.pipeline [] [("A", 1)] false
        [("n1", Sum.inl (Proc.atomic [("p1", 7)] [] false)),
         ("n2", Sum.inl (Proc.atomic [("p2", 0)] [] false)),
         ("n3", Sum.inl (Proc.atomic [("p3", 0)] [] false))], true) := by
  simp [complete_parameters_pipeline_constr, complete_topo_constr,
    try_complete, complete_parameters, set_parameters, import_from_dict,
    export_to_dict, resolve_self, own_params, find_trait, set_value]

/-- C3 as amended: a failure raised while COMPLETING one child (the
`try` of lines 176-184, fallback construction included) is caught and
the child skipped, the traversal continuing — for three children whose
second's completion raises, the first and third still receive resolved
parameters; but a failure while CONSTRUCTING a child's completion
engine (`get_completion_engine`, lines 173-175) occurs before that
`try`, so it propagates and aborts the traversal: the failing child and
every later child are left untouched and the exception reaches the
caller of `complete_parameters`.  When construction never raises, the
construction-aware traversal agrees with the plain one. -/
theorem C3_completion_failure_skipped_construction_failure_aborts
    (R : ResolveFn α) (inputs : Inputs α)
    (params attrs p1 a1 p2 a2 p3 a3 : List (String × α))
    (n1 n2 n3 : String) (construct : Proc α → Except Unit Unit)
    (hc1 : construct (.atomic p1 a1 false) = Except.ok ())
    (hc2 : construct (.atomic p2 a2 false) = Except.error ()) :
    (complete_parameters R inputs
        (.pipeline params attrs false
          [(n1, .inl (.atomic p1 a1 false)),
           (n2, .inl (.atomic p2 a2 true)),
           (n3, .inl (.atomic p3 a3 false))]) =
      (let pa := set_parameters params attrs inputs
       let cin : Inputs α :=
         { plain := [], capsul_attributes := some (export_to_dict pa.2) }
       let ca1 := set_parameters p1 a1 cin
       let ca3 := set_parameters p3 a3 cin
       .ok (.pipeline
        (resolve_self R
          (.pipeline params attrs false
            [(n1, .inl (.atomic p1 a1 false)),
             (n2, .inl (.atomic p2 a2 true)),
             (n3, .inl (.atomic p3 a3 false))])
          pa.2 pa.1)
        pa.2 false
        [(n1, .inl (.atomic (resolve_self R (.atomic p1 a1 false)
            ca1.2 ca1.1) ca1.2 false)),
         (n2, .inl (.atomic p2 a2 true)),
         (n3, .inl (.atomic (resolve_self R (.atomic p3 a3 false)
            ca3.2 ca3.1) ca3.2 false))]))) ∧
      (complete_parameters_pipeline_constr R construct inputs params attrs
          [(n1, .inl (.atomic p1 a1 false)),
           (n2, .inl (.atomic p2 a2 false)),
           (n3, .inl (.atomic p3 a3 false))] =
        (let pa := set_parameters params attrs inputs
         let cin : Inputs α :=
           { plain := [],
             capsul_attributes := some (export_to_dict pa.2) }
         let ca1 := set_parameters p1 a1 cin
         (.pipeline pa.1 pa.2 false
          [(n1, .inl (.atomic (resolve_self R (.atomic p1 a1 false)
              ca1.2 ca1.1) ca1.2 false)),
           (n2, .inl (.atomic p2 a2 false)),
           (n3, .inl (.atomic p3 a3 false))], true))) ∧
      ∀ (av : List (String × α))
        (topo : List (String × (Proc α ⊕ List (Bool × Proc α)))),
        complete_topo_constr R (fun _ => Except.ok ()) av topo =
          (complete_topo R av topo, false) := by
  refine ⟨pipeline_child_completion_failure_skipped R inputs params attrs
    p1 a1 p2 a2 p3 a3 n1 n2 n3, ?_, complete_topo_constr_ok R⟩
  simp only [complete_parameters_pipeline_constr, complete_topo_constr,
    hc1, hc2, try_complete, complete_parameters, Bool.false_eq_true,
    if_false, if_true, reduceIte]

/-- Witness for C3's amended statement: a concrete three-child pipeline
whose second child's engine construction raises; the call aborts with
child 1 completed (its parameter resolved to 9) and children 2 and 3
untouched. -/
theorem C3_completion_failure_skipped_construction_failure_aborts_witness :
    complete_parameters_pipeline_constr
        (fun _ _ _ => Except.ok (some 9))
        (fun p => if own_params p = [("q2", 0)] then Except.error ()
          else Except.ok ())
        { plain := [], capsul_attributes := none } [] [("B", 2)]
        [("m1", Sum.inl (Proc.atomic [("q1", 0)] [] false)),
         ("m2", Sum.inl (Proc.atomic [("q2", 0)] [] false)),
         ("m3", Sum.inl (Proc.atomic [("q3", (0 : Nat))] [] false))] =
      (Proc.pipeline [] [("B", 2)] false
        [("m1", Sum.inl (Proc.atomic [("q1", 9)] [] false)),
         ("m2", Sum.inl (Proc.atomic [("q2", 0)] [] false)),
         ("m3", Sum.inl (Proc.atomic [("q3", 0)] [] false))], true) :=
  ((C3_completion_failure_skipped_construction_failure_aborts
    (fun _ _ _ => Except.ok (some 9))
    { plain := [], capsul_attributes := none } [] [("B", 2)]
    [("q1", 0)] [] [("q2", 0)] [] [("q3", 0)] [] "m1" "m2" "m3"
    (fun p => if own_params p = [("q2", 0)] then Except.error ()
      else Except.ok ())
    (by simp [own_params]) (by simp [own_params])).2.1).trans
    (by simp [set_parameters, import_from_dict, export_to_dict,
      resolve_self, find_trait, set_value])

/-- Counterexample for C6: completing an atomic process when path
completion is unconfigured — every `attributes_to_path` call raises the
pure-virtual factory's `RuntimeError` — still returns normally with the
process unchanged, because the final phase wraps each resolution in a
bare `except: pass` (lines 208-213); the error is not fatal and does not
propagate to the caller of `complete_parameters`. -/
theorem C6_counterexample :
    complete_parameters unconfigured_attributes_to_path
        { plain := [], capsul_attributes := none }
        (.atomic [("out", 0)] [("A", 1)] false : Proc Nat) =
      .ok (.atomic [("out", 0)] [("A", 1)] false) := by
  simp [complete_parameters, set_parameters, import_from_dict,
    resolve_self, unconfigured_attributes_to_path,
    null_factory_get_path_completion_engine]

/-- C6 as amended: a failure to resolve a single parameter during the
final phase of `complete_parameters` never aborts the pass — the
parameter keeps its prior value and the loop continues — and this
includes the `RuntimeError` raised by the pure-virtual
`PathCompletionEngineFactory` when no path-completion implementation is
configured, which the same bare `except: pass` swallows; that structural
error surfaces only to direct callers of `attributes_to_path`. -/
theorem C6_resolution_failures_never_abort (R : ResolveFn α)
    (inputs : Inputs α) (params attrs : List (String × α))
    (parameter : String) :
    (∃ q, complete_parameters R inputs (.atomic params attrs false) =
        .ok q) ∧
      complete_parameters unconfigured_attributes_to_path
          { plain := [], capsul_attributes := none }
          (.atomic params attrs false) =
        .ok (.atomic params attrs false) ∧
      engine_attributes_to_path unconfigured_attributes_to_path
          (.atomic params attrs false) parameter attrs =
        .error () := by
  refine ⟨⟨.atomic
      (resolve_self R (.atomic params attrs false)
        (set_parameters params attrs inputs).2
        (set_parameters params attrs inputs).1)
      (set_parameters params attrs inputs).2 false, ?_⟩, ?_, ?_⟩
  · rw [complete_parameters]
    simp
  · rw [complete_parameters]
    simp [set_parameters, import_from_dict, resolve_self,
      unconfigured_attributes_to_path,
      null_factory_get_path_completion_engine]
  · rfl

/-- C9: the base `PathCompletionEngine.attributes_to_path` returns
`None` for every process, parameter and attribute set; consequently the
final phase of a `complete_parameters` pass resolving through it assigns
nothing — an atomic process comes back exactly as it went in (under
empty inputs), and a pipeline's own parameters keep their prior
values. -/
theorem C9_base_path_resolution_assigns_nothing :
    (∀ (process : Proc α) (parameter : String)
        (attributes : List (String × α)),
      base_attributes_to_path process parameter attributes = none) ∧
      (∀ (self : Proc α) (attributes ps : List (String × α)),
        resolve_self base_path_resolution self attributes ps = ps) ∧
      (∀ params attrs : List (String × α),
        complete_parameters base_path_resolution
            { plain := [], capsul_attributes := none }
            (.atomic params attrs false) =
          .ok (.atomic params attrs false)) ∧
      ∀ (params attrs : List (String × α))
        (topo : List (String × (Proc α ⊕ List (Bool × Proc α)))),
        ∃ q, complete_parameters base_path_resolution
            { plain := [], capsul_attributes := none }
            (.pipeline params attrs false topo) =
          .ok q ∧ own_params q = params := by
  have hres : ∀ (self : Proc α) (attributes ps : List (String × α)),
      resolve_self base_path_resolution self attributes ps = ps := by
    intro self attributes ps
    simp [resolve_self, base_path_resolution, base_attributes_to_path]
  refine ⟨fun _ _ _ => rfl, hres, ?_, ?_⟩
  · intro params attrs
    rw [complete_parameters]
    simp [set_parameters, import_from_dict, hres]
  · intro params attrs topo
    refine ⟨.pipeline params attrs false
      (complete_topo base_path_resolution (export_to_dict attrs) topo),
      ?_, ?_⟩
    · rw [complete_parameters]
      simp [set_parameters, import_from_dict, hres]
    · simp [own_params]

/-- C10: `Process.set_parameter(name, None)` on a parameter whose trait
is a file or directory path stores `_Undefined` instead of `None`; for a
non-path trait, or for any value other than `None`, the given value is
stored unchanged. -/
theorem C10_set_parameter_none_becomes_undefined
    (trait_of : String → TraitKind) (st : List (String × PyValue α))
    (name : String) (value : PyValue α) :
    (is_trait_pathname (trait_of name) = true →
      process_set_parameter trait_of st name .pyNone =
        set_value st name .undefined) ∧
      (is_trait_pathname (trait_of name) = false →
        process_set_parameter trait_of st name value =
          set_value st name value) ∧
      (value.isNone = false →
        process_set_parameter trait_of st name value =
          set_value st name value) := by
  refine ⟨fun h => ?_, fun h => ?_, fun h => ?_⟩
  · simp [process_set_parameter, h, PyValue.isNone]
  · simp [process_set_parameter, h]
  · simp [process_set_parameter, h]

end Capsul
